import Mathlib

/-!
Shallow embedding of `request_helpers.go` (package `testutil`): a fluent
request builder (`RequestBuilder`), a dispatcher (`GoWithHTTPHandler`) that
synthesizes an in-memory HTTP request and runs it against a handler, and a
content-type driven response decoder (`UnmarshalBodyToObject`).

Modelling conventions:
* Byte slices (`[]byte`, `bytes.Buffer`) are modelled as `String`; a `nil`
  slice is `Option.none`.
* Go `error` values are modelled by their message `String`; `fmt.Errorf`
  with `%s`/`%w` becomes string concatenation.
* The builder's `map[string]string` is modelled as an association list in
  insertion order with replace-on-write (`mapSet`). Go map iteration order
  is unspecified; this embedding iterates in insertion order, a
  deterministic refinement — the properties proved below do not depend on
  the order in which distinct keys are visited.
* `http.Header` (`net/textproto.MIMEHeader`) is an association list from
  canonicalized header key to the list of values; `Header.Add` appends a
  value under `CanonicalMIMEHeaderKey key` and `Header.Get` returns the
  first value under the canonical key, or the empty string.
* `req.AddCookie` is modelled as appending to a cookie list on the request
  (in Go it appends the serialized pair to the single Cookie header line;
  order and multiplicity are the same).
* `context.Context` is opaque: a tagged value. A request starts with the
  default test context (`none`) and `WithContext` replaces it.
* `httptest.NewRequest` derives the host from an absolute-URL target and
  otherwise uses the default `example.com`; its panics on empty method or
  unparsable target are outside the scope of the claims and not modelled.
* The reporter (`t.Errorf`) and the handler are observed by recording the
  formatted report messages and the requests handed to the handler, in
  order, in the dispatch outcome.
-/

/-- Opaque cancellation context (`context.Context`), identified by a tag. -/
structure Ctx where
  id : Nat
deriving DecidableEq

/-- HTTP cookie (`http.Cookie`), restricted to the fields this package sets. -/
structure Cookie where
  Name : String
  Value : String
deriving DecidableEq

/-- RequestBuilder caches request settings as the request is built up
(source lines 48–56).  Defaults are the Go zero values; `NewRequest`
allocates the (empty) header map. -/
structure RequestBuilder where
  Method : String := ""
  Path : String := ""
  Headers : List (String × String) := []
  Body : Option String := none
  Error : Option String := none
  Cookies : List Cookie := []
  Context : Option Ctx := none
deriving DecidableEq

/-- NewRequest returns a fresh builder with an empty header map. -/
def NewRequest : RequestBuilder := {}

/-- Read of the builder header map (Go `r.Headers[k]`): first entry wins
(entries have unique keys by construction). -/
def mapLookup : List (String × String) → String → Option String
  | [], _ => none
  | (k0, v0) :: rest, k => if k0 = k then some v0 else mapLookup rest k

/-- Write to the builder header map (Go `r.Headers[k] = v`): replace the
existing entry in place, or append a new one. -/
def mapSet : List (String × String) → String → String → List (String × String)
  | [], k, v => [(k, v)]
  | (k0, v0) :: rest, k, v =>
    if k0 = k then (k0, v) :: rest else (k0, v0) :: mapSet rest k v

/-- WithMethod sets the method and path. -/
def RequestBuilder.WithMethod (r : RequestBuilder) (method path : String) :
    RequestBuilder :=
  { r with Method := method, Path := path }

def RequestBuilder.Get (r : RequestBuilder) (path : String) : RequestBuilder :=
  r.WithMethod "GET" path

def RequestBuilder.Post (r : RequestBuilder) (path : String) : RequestBuilder :=
  r.WithMethod "POST" path

def RequestBuilder.Put (r : RequestBuilder) (path : String) : RequestBuilder :=
  r.WithMethod "PUT" path

def RequestBuilder.Patch (r : RequestBuilder) (path : String) : RequestBuilder :=
  r.WithMethod "PATCH" path

def RequestBuilder.Delete (r : RequestBuilder) (path : String) : RequestBuilder :=
  r.WithMethod "DELETE" path

/-- WithHeader sets a header. -/
def RequestBuilder.WithHeader (r : RequestBuilder) (header value : String) :
    RequestBuilder :=
  { r with Headers := mapSet r.Headers header value }

def RequestBuilder.WithJWSAuth (r : RequestBuilder) (jws : String) :
    RequestBuilder :=
  { r with Headers := mapSet r.Headers "Authorization" ("Bearer " ++ jws) }

def RequestBuilder.WithHost (r : RequestBuilder) (value : String) :
    RequestBuilder :=
  r.WithHeader "Host" value

def RequestBuilder.WithContentType (r : RequestBuilder) (value : String) :
    RequestBuilder :=
  r.WithHeader "Content-Type" value

def RequestBuilder.WithJsonContentType (r : RequestBuilder) : RequestBuilder :=
  r.WithContentType "application/json"

def RequestBuilder.WithAccept (r : RequestBuilder) (value : String) :
    RequestBuilder :=
  r.WithHeader "Accept" value

def RequestBuilder.WithAcceptJson (r : RequestBuilder) : RequestBuilder :=
  r.WithAccept "application/json"

/-- WithBody sets the raw body (`nil` clears it). -/
def RequestBuilder.WithBody (r : RequestBuilder) (body : Option String) :
    RequestBuilder :=
  { r with Body := body }

/-- WithJsonBody marshals `obj` and sends it as the body with
Content-Type `application/json` (source lines 125–132).  `json.Marshal`
is abstracted as the `marshal` argument; on failure it yields a `nil`
byte slice and an error, and the source then assigns
`r.Error = fmt.Errorf("failed to marshal json object: %w", err)`
unconditionally (the assignment is not guarded by a previous error). -/
def RequestBuilder.WithJsonBody {α : Type} (r : RequestBuilder)
    (marshal : α → Except String String) (obj : α) : RequestBuilder :=
  match marshal obj with
  | Except.ok bs =>
    RequestBuilder.WithJsonContentType { r with Body := some bs }
  | Except.error e =>
    RequestBuilder.WithJsonContentType
      { r with Body := none,
               Error := some ("failed to marshal json object: " ++ e) }

/-- WithCookie appends a cookie. -/
def RequestBuilder.WithCookie (r : RequestBuilder) (c : Cookie) :
    RequestBuilder :=
  { r with Cookies := r.Cookies ++ [c] }

def RequestBuilder.WithCookieNameValue (r : RequestBuilder)
    (name value : String) : RequestBuilder :=
  r.WithCookie { Name := name, Value := value }

def RequestBuilder.WithContext (r : RequestBuilder) (ctx : Ctx) :
    RequestBuilder :=
  { r with Context := some ctx }

/-- Token byte check of `net/textproto` (`validHeaderFieldByte`): letters,
digits and the RFC 7230 token specials (39 is the apostrophe, 96 the
backquote). -/
def validHeaderFieldByte (c : Char) : Bool :=
  c.isAlphanum || c = '!' || c = '#' || c = '$' || c = '%' || c = '&' ||
  c.toNat = 39 || c = '*' || c = '+' || c = '-' || c = '.' || c = '^' ||
  c = '_' || c.toNat = 96 || c = '|' || c = '~'

/-- Case-mapping loop of `CanonicalMIMEHeaderKey`: uppercase the first
letter and every letter following a hyphen, lowercase the rest. -/
def canonicalizeChars : Bool → List Char → List Char
  | _, [] => []
  | upper, c :: rest =>
    let c2 := if upper then c.toUpper else c.toLower
    c2 :: canonicalizeChars (c2 = '-') rest

/-- `net/textproto.CanonicalMIMEHeaderKey`: a key containing an invalid
header byte is returned unchanged, otherwise it is case-canonicalized. -/
def canonicalMIMEHeaderKey (s : String) : String :=
  if s.toList.all validHeaderFieldByte then
    String.mk (canonicalizeChars true s.toList)
  else s

/-- Append a value under an (already canonical) key in a multi-valued
header map (`textproto.MIMEHeader`: `h[key] = append(h[key], value)`). -/
def multiAdd : List (String × List String) → String → String →
    List (String × List String)
  | [], k, v => [(k, [v])]
  | (k0, vs) :: rest, k, v =>
    if k0 = k then (k0, vs ++ [v]) :: rest else (k0, vs) :: multiAdd rest k v

/-- Raw lookup of the value list stored under an (already canonical) key. -/
def multiLookup : List (String × List String) → String → Option (List String)
  | [], _ => none
  | (k0, vs) :: rest, k => if k0 = k then some vs else multiLookup rest k

/-- Value list stored under an already canonical key (empty when absent). -/
def valuesAt (h : List (String × List String)) (ck : String) : List String :=
  (multiLookup h ck).getD []

/-- `http.Header.Add`: canonicalize the key, then append the value. -/
def headerAdd (h : List (String × List String)) (key value : String) :
    List (String × List String) :=
  multiAdd h (canonicalMIMEHeaderKey key) value

/-- Value list a request header map holds for a (user-spelled) key. -/
def headerValues (h : List (String × List String)) (key : String) :
    List String :=
  valuesAt h (canonicalMIMEHeaderKey key)

/-- `http.Header.Get`: first value under the canonical key, else `""`. -/
def headerGet (h : List (String × List String)) (key : String) : String :=
  (headerValues h key).headD ""

/-- Step function applying one builder header entry to a request header
map (the body of the loop `req.Header.Add(h, v)`). -/
def addHeadersStep (h : List (String × List String)) (kv : String × String) :
    List (String × List String) :=
  headerAdd h kv.1 kv.2

/-- Boolean list-prefix test (over characters). -/
def isPrefixList : List Char → List Char → Bool
  | [], _ => true
  | _ :: _, [] => false
  | p :: ps, c :: cs => p = c && isPrefixList ps cs

/-- Host derivation of `httptest.NewRequest`: an absolute-URL target
carries its own host, any other target gets the default host. -/
def hostFromTarget (target : String) : String :=
  if isPrefixList "http://".toList target.toList then
    String.mk ((target.toList.drop 7).takeWhile (fun c => c ≠ '/'))
  else if isPrefixList "https://".toList target.toList then
    String.mk ((target.toList.drop 8).takeWhile (fun c => c ≠ '/'))
  else "example.com"

/-- In-memory request handed to the handler (`*http.Request`, restricted
to the attributes this package sets). -/
structure HttpRequest where
  method : String
  path : String
  header : List (String × List String)
  host : String
  cookies : List Cookie
  ctx : Option Ctx
  body : Option String
deriving DecidableEq

/-- Synthesis of the request, source lines 157–174: `httptest.NewRequest`
from method, path and body; then every builder header is `Add`ed; then a
recorded `"Host"` entry overrides the host attribute; then cookies are
attached in order; then an attached context replaces the default one.
The writes touch distinct attributes, so they are given attribute-wise. -/
def RequestBuilder.synthesizeRequest (r : RequestBuilder) : HttpRequest :=
  { method := r.Method
    path := r.Path
    body := r.Body
    header := r.Headers.foldl addHeadersStep []
    host :=
      match mapLookup r.Headers "Host" with
      | some host => host
      | none => hostFromTarget r.Path
    cookies := r.Cookies.foldl (fun cs c => cs ++ [c]) []
    ctx := r.Context }

/-- Final state of the response recorder after the handler ran
(`httptest.ResponseRecorder`: status code, header map, body buffer). -/
structure RecordedResponse where
  code : Nat := 200
  headers : List (String × List String) := []
  body : String := ""
deriving DecidableEq

/-- CompletedRequest wraps the recorder; `Strict` defaults to `false`. -/
structure CompletedRequest where
  Recorder : RecordedResponse
  Strict : Bool := false
deriving DecidableEq

/-- Observable outcome of one `GoWithHTTPHandler` call: the `Errorf`
messages the reporter received, the requests the handler received (in
order), the returned value, and the builder state it leaves behind. -/
structure DispatchOutcome where
  reporterCalls : List String
  handlerCalls : List HttpRequest
  result : Option CompletedRequest
  finalBuilder : RequestBuilder
deriving DecidableEq

/-- GoWithHTTPHandler, source lines 151–181: a deferred error is reported
once via `t.Errorf("error constructing request: %s", r.Error)` and `nil`
is returned; otherwise the request is synthesized, the handler is invoked
once with it and a fresh recorder, and the recorder is wrapped in a
`CompletedRequest`.  The function performs no write to `r`, so the
builder it leaves behind is `r` itself. -/
def RequestBuilder.GoWithHTTPHandler (r : RequestBuilder)
    (handler : HttpRequest → RecordedResponse) : DispatchOutcome :=
  match r.Error with
  | some e =>
    { reporterCalls := ["error constructing request: " ++ e]
      handlerCalls := []
      result := none
      finalBuilder := r }
  | none =>
    let req := r.synthesizeRequest
    let recd := handler req
    { reporterCalls := []
      handlerCalls := [req]
      result := some { Recorder := recd, Strict := false }
      finalBuilder := r }

/-- DisallowUnknownFields turns strict decoding on. -/
def CompletedRequest.DisallowUnknownFields (c : CompletedRequest) :
    CompletedRequest :=
  { c with Strict := true }

/-- Code is a shortcut for the response code. -/
def CompletedRequest.Code (c : CompletedRequest) : Nat :=
  c.Recorder.code

/-- Longest digit run at the front of a character list. -/
def spanDigits : List Char → List Char × List Char
  | [] => ([], [])
  | c :: rest =>
    if c.isDigit then
      let (ds, r) := spanDigits rest
      (c :: ds, r)
    else ([], c :: rest)

/-- Characters of a quoted key up to the closing quote (no escapes). -/
def spanKey : List Char → Option (List Char × List Char)
  | [] => none
  | c :: rest =>
    if c = '"' then some ([], rest)
    else
      match spanKey rest with
      | some (k, r) => some (c :: k, r)
      | none => none

def digitsToNat (ds : List Char) : Nat :=
  ds.foldl (fun n c => n * 10 + (c.toNat - 48)) 0

/-- Integer literal at the front of a character list. -/
def parseIntChars (cs : List Char) : Option (Int × List Char) :=
  match cs with
  | '-' :: rest =>
    let (ds, r) := spanDigits rest
    if ds.isEmpty then none else some (-(Int.ofNat (digitsToNat ds)), r)
  | _ =>
    let (ds, r) := spanDigits cs
    if ds.isEmpty then none else some (Int.ofNat (digitsToNat ds), r)

/-- Fields of a flat JSON object body, after the opening brace: a
comma-separated sequence of string-key/integer-value pairs closed by the
closing brace. -/
def parseFieldsAux : Nat → List Char → Option (List (String × Int))
  | 0, _ => none
  | fuel + 1, cs =>
    match cs with
    | '"' :: rest =>
      match spanKey rest with
      | none => none
      | some (kcs, r1) =>
        match r1 with
        | ':' :: r2 =>
          match parseIntChars r2 with
          | none => none
          | some (n, r3) =>
            match r3 with
            | ',' :: r4 =>
              match parseFieldsAux fuel r4 with
              | none => none
              | some fields => some ((String.mk kcs, n) :: fields)
            | ['\x7d'] => some [(String.mk kcs, n)]
            | _ => none
        | _ => none
    | _ => none

/-- Flat-JSON-object view of a body: `none` when the body is not a flat
object of integer fields. -/
def parseFlatJson (s : String) : Option (List (String × Int)) :=
  match s.toList with
  | '\x7b' :: rest =>
    if rest = ['\x7d'] then some [] else parseFieldsAux (rest.length + 1) rest
  | _ => none

/-- Decode target with a single field `known` (the shape used by the
strict-mode property of the specification). -/
structure KnownObj where
  known : Int := 0
deriving DecidableEq

/-- Modelled from the spec: the JSON decoder function registered for
`application/json` (it lives in a repository file that is not under
`src/`).  Per the spec a decoder receives the full content-type header
value, the raw body, the destination and the strict flag; in strict mode
it rejects object fields not present in the target shape, otherwise it
ignores them.  Absent fields leave the destination untouched; for a
repeated field the last occurrence wins (as in `encoding/json`). -/
def jsonHandler (_ctype : String) (body : String) (obj : KnownObj)
    (strict : Bool) : Option String × KnownObj :=
  match parseFlatJson body with
  | none => (some "invalid json body", obj)
  | some fields =>
    if strict && fields.any (fun f => f.1 ≠ "known") then
      (some "json: unknown field", obj)
    else
      match (fields.filter (fun f => f.1 = "known")).getLast? with
      | some f => (none, { known := f.2 })
      | none => (none, obj)

/-- Modelled from the spec: the process-wide decoder registry behind
`getHandler` (defined in a repository file that is not under `src/`).
Per the spec it is a mapping from bare media-type string to decoder
function, seeded with `application/json`; nothing else is registered in
the scope of this repository. -/
def getHandler (content : String) :
    Option (String → String → KnownObj → Bool → Option String × KnownObj) :=
  if content = "application/json" then some jsonHandler else none

/-- Prefix of a character list up to (excluding) the first semicolon:
the `[0]` element of `strings.Split(ctype, ";")`. -/
def beforeSemicolon : List Char → List Char
  | [] => []
  | c :: rest => if c = ';' then [] else c :: beforeSemicolon rest

/-- `strings.TrimSpace`: drop whitespace from both ends. -/
def trimSpace (cs : List Char) : List Char :=
  ((cs.dropWhile Char.isWhitespace).reverse.dropWhile Char.isWhitespace).reverse

/-- Bare media type of a Content-Type header value: the part before the
first `;`, with surrounding whitespace trimmed
(`strings.TrimSpace(strings.Split(ctype, ";")[0])`). -/
def bareContentType (ctype : String) : String :=
  String.mk (trimSpace (beforeSemicolon ctype.toList))

/-- UnmarshalBodyToObject, source lines 199–211: read the Content-Type
header, strip everything after the first semicolon, trim whitespace, and
look up a decoder for the bare media type; fail with
`"unhandled content: <type>"` when none is registered, otherwise call the
decoder with the full header value, the body, the destination and the
strict flag.  The Go destination is an out-parameter; the model returns
the pair (error message if any, destination afterwards). -/
def CompletedRequest.UnmarshalBodyToObject (c : CompletedRequest)
    (obj : KnownObj) : Option String × KnownObj :=
  let ctype := headerGet c.Recorder.headers "Content-Type"
  let content := bareContentType ctype
  match getHandler content with
  | none => (some ("unhandled content: " ++ content), obj)
  | some handler => handler ctype c.Recorder.body obj c.Strict

/-- Handler that ignores the request and records the default response;
used to instantiate dispatch at concrete inputs. -/
def nullHandler : HttpRequest → RecordedResponse := fun _ => {}

/-- Marshal function that succeeds with a fixed serialization; stands in
for `json.Marshal` on a marshalable value. -/
def okMarshal : Unit → Except String String := fun _ => Except.ok "7"

/-- Marshal function that fails; stands in for `json.Marshal` on an
unsupported value such as a channel or a function. -/
def badMarshal : Unit → Except String String :=
  fun _ => Except.error "unsupported type"

/-- Recorded response carrying an unregistered media type. -/
def xmlReq : CompletedRequest where
  Recorder := { code := 200, headers := [("Content-Type", ["text/xml"])], body := "" }

/-- Recorded response whose Content-Type carries a charset parameter. -/
def utf8JsonReq : CompletedRequest where
  Recorder := { code := 200, headers := [("Content-Type", ["application/json; charset=utf-8"])], body := "\x7b\"known\":5\x7d" }

/-- Recorded JSON response with an unknown field, strict decoding. -/
def strictJsonReq : CompletedRequest where
  Recorder := { code := 200, headers := [("Content-Type", ["application/json"])], body := "\x7b\"known\":1,\"unknown\":2\x7d" }
  Strict := true

/-- Recorded JSON response with an unknown field, lenient decoding. -/
def lenientJsonReq : CompletedRequest where
  Recorder := { code := 200, headers := [("Content-Type", ["application/json"])], body := "\x7b\"known\":1,\"unknown\":2\x7d" }
  Strict := false

/-- Recorded response whose Content-Type header value is empty. -/
def emptyCtReq : CompletedRequest where
  Recorder := { code := 204, headers := [("Content-Type", [""])], body := "ignored" }

/-! ### Helper lemmas about the map and header models -/

theorem mapLookup_mapSet_self (m : List (String × String)) (k v : String) :
    mapLookup (mapSet m k v) k = some v := by
  induction m with
  | nil => simp [mapSet, mapLookup]
  | cons kv rest ih =>
    obtain ⟨k0, v0⟩ := kv
    by_cases h : k0 = k
    · simp [mapSet, mapLookup, h]
    · simp [mapSet, mapLookup, h, ih]

theorem mapLookup_mem (m : List (String × String)) (k v : String)
    (h : mapLookup m k = some v) : (k, v) ∈ m := by
  induction m with
  | nil => simp [mapLookup] at h
  | cons kv rest ih =>
    obtain ⟨k0, v0⟩ := kv
    by_cases hk : k0 = k
    · subst hk
      simp [mapLookup] at h
      subst h
      exact List.mem_cons_self _ _
    · simp [mapLookup, hk] at h
      exact List.mem_cons_of_mem _ (ih h)

theorem valuesAt_multiAdd (h : List (String × List String)) (k v ck : String) :
    valuesAt (multiAdd h k v) ck =
      if k = ck then valuesAt h ck ++ [v] else valuesAt h ck := by
  induction h with
  | nil =>
    by_cases hk : k = ck <;> simp [multiAdd, valuesAt, multiLookup, hk]
  | cons kv rest ih =>
    obtain ⟨k0, vs⟩ := kv
    by_cases h0 : k0 = k
    · subst h0
      by_cases hk : k0 = ck
      · simp [multiAdd, valuesAt, multiLookup, hk]
      · simp [multiAdd, valuesAt, multiLookup, hk]
    · by_cases hk : k0 = ck
      · subst hk
        have : ¬ k = k0 := fun hh => h0 hh.symm
        simp [multiAdd, valuesAt, multiLookup, h0, this]
      · simp [multiAdd, valuesAt, multiLookup, h0, hk] at ih ⊢
        exact ih

theorem valuesAt_foldl_addHeaders (hs : List (String × String))
    (init : List (String × List String)) (ck : String) :
    valuesAt (hs.foldl addHeadersStep init) ck =
      valuesAt init ck ++
        (hs.filter (fun kv => canonicalMIMEHeaderKey kv.1 = ck)).map Prod.snd := by
  induction hs generalizing init with
  | nil => simp
  | cons kv rest ih =>
    rw [List.foldl_cons, ih]
    rw [show addHeadersStep init kv = multiAdd init (canonicalMIMEHeaderKey kv.1) kv.2 from rfl]
    rw [valuesAt_multiAdd]
    by_cases hk : canonicalMIMEHeaderKey kv.1 = ck
    · simp [hk, List.filter_cons]
    · simp [hk, List.filter_cons]

theorem filter_eq_singleton_of_nodup_map {α β : Type} [DecidableEq β]
    (f : α → β) (l : List α) (hnd : (l.map f).Nodup) (a : α) (ha : a ∈ l) :
    l.filter (fun x => f x = f a) = [a] := by
  induction l with
  | nil => simp at ha
  | cons b rest ih =>
    rw [List.map_cons, List.nodup_cons] at hnd
    rcases List.mem_cons.mp ha with hab | harest
    · subst hab
      have hnone : rest.filter (fun x => f x = f a) = [] := by
        rw [List.filter_eq_nil_iff]
        intro x hx
        simp only [decide_eq_true_eq]
        intro hfx
        exact hnd.1 (hfx ▸ List.mem_map_of_mem f hx)
      simp [List.filter_cons, hnone]
    · have hfb : ¬ f b = f a := by
        intro hfb
        exact hnd.1 (hfb ▸ List.mem_map_of_mem f harest)
      simp [List.filter_cons, hfb, ih hnd.2 harest]

theorem foldl_append_singleton {α : Type} (cs : List α) (init : List α) :
    cs.foldl (fun a c => a ++ [c]) init = init ++ cs := by
  induction cs generalizing init with
  | nil => simp
  | cons c rest ih => simp [ih]

theorem foldl_withCookie (r : RequestBuilder) (cs : List Cookie) :
    (cs.foldl RequestBuilder.WithCookie r).Cookies = r.Cookies ++ cs := by
  induction cs generalizing r with
  | nil => simp
  | cons c rest ih =>
    rw [List.foldl_cons, ih]
    simp [RequestBuilder.WithCookie]

theorem foldl_withCookie_error (r : RequestBuilder) (cs : List Cookie) :
    (cs.foldl RequestBuilder.WithCookie r).Error = r.Error := by
  induction cs generalizing r with
  | nil => rfl
  | cons c rest ih =>
    rw [List.foldl_cons, ih]
    rfl

/-! ### The claims -/

/-- C1: if the builder carries a deferred construction error when
GoWithHTTPHandler is invoked, dispatch reports the error exactly once via
the reporter (one Errorf call, with the formatted message), returns no
result, and never invokes the handler. -/
theorem dispatch_deferred_error_aborts (r : RequestBuilder)
    (handler : HttpRequest → RecordedResponse) (e : String)
    (h : r.Error = some e) :
    (r.GoWithHTTPHandler handler).reporterCalls =
        ["error constructing request: " ++ e] ∧
    (r.GoWithHTTPHandler handler).result = none ∧
    (r.GoWithHTTPHandler handler).handlerCalls = [] := by
  simp [RequestBuilder.GoWithHTTPHandler, h]

/-- C1 witness: a concrete builder carrying a deferred error. -/
theorem dispatch_deferred_error_aborts_witness :
    (({ Error := some "boom" } : RequestBuilder).GoWithHTTPHandler
        nullHandler).reporterCalls = ["error constructing request: boom"] ∧
    (({ Error := some "boom" } : RequestBuilder).GoWithHTTPHandler
        nullHandler).result = none ∧
    (({ Error := some "boom" } : RequestBuilder).GoWithHTTPHandler
        nullHandler).handlerCalls = [] :=
  dispatch_deferred_error_aborts { Error := some "boom" } nullHandler "boom" rfl

/-- C9: GoWithHTTPHandler leaves the builder unchanged — the source
contains no write to any builder field, so the builder state after
dispatch equals the state before, field by field. -/
theorem dispatch_preserves_builder (r : RequestBuilder)
    (handler : HttpRequest → RecordedResponse) :
    (r.GoWithHTTPHandler handler).finalBuilder.Method = r.Method ∧
    (r.GoWithHTTPHandler handler).finalBuilder.Path = r.Path ∧
    (r.GoWithHTTPHandler handler).finalBuilder.Headers = r.Headers ∧
    (r.GoWithHTTPHandler handler).finalBuilder.Body = r.Body ∧
    (r.GoWithHTTPHandler handler).finalBuilder.Error = r.Error ∧
    (r.GoWithHTTPHandler handler).finalBuilder.Cookies = r.Cookies ∧
    (r.GoWithHTTPHandler handler).finalBuilder.Context = r.Context := by
  cases h : r.Error <;> simp [RequestBuilder.GoWithHTTPHandler, h]

/-- C2 counterexample: with a configured "Host" header the synthesized
request does carry a literal "Host" entry in its header map — the header
loop `req.Header.Add(h, v)` adds it before the host attribute is
overridden, and nothing removes it. -/
theorem host_header_line_cex :
    ((NewRequest.WithHeader "Host" "example.org").synthesizeRequest).host =
        "example.org" ∧
    headerValues
        ((NewRequest.WithHeader "Host" "example.org").synthesizeRequest).header
        "Host" = ["example.org"] := by
  constructor
  · rfl
  · rfl

/-- C2 (amended): a "Host" entry in the builder header map sets the
synthesized request's host attribute to its value; the entry is
additionally added to the request's header map like any other configured
header (it is not removed from the header lines). -/
theorem host_header_overrides_host (r : RequestBuilder) (v : String)
    (h : mapLookup r.Headers "Host" = some v) :
    r.synthesizeRequest.host = v ∧
    v ∈ headerValues r.synthesizeRequest.header "Host" := by
  constructor
  · simp [RequestBuilder.synthesizeRequest, h]
  · have hmem : ("Host", v) ∈ r.Headers := mapLookup_mem _ _ _ h
    have hcanon : canonicalMIMEHeaderKey "Host" = "Host" := by decide
    show v ∈ valuesAt (r.Headers.foldl addHeadersStep [])
      (canonicalMIMEHeaderKey "Host")
    rw [hcanon, valuesAt_foldl_addHeaders]
    simp only [valuesAt, multiLookup, Option.getD_none, List.nil_append]
    exact List.mem_map_of_mem Prod.snd
      (List.mem_filter.mpr ⟨hmem, by simp [hcanon]⟩)

/-- C2 witness: concrete builder whose "Host" header is my.example. -/
theorem host_header_overrides_host_witness :
    (NewRequest.WithHost "my.example").synthesizeRequest.host = "my.example" ∧
    "my.example" ∈ headerValues
      (NewRequest.WithHost "my.example").synthesizeRequest.header "Host" :=
  host_header_overrides_host (NewRequest.WithHost "my.example") "my.example" rfl

/-- C3 counterexample: two failing WithJsonBody calls in sequence — the
second marshal failure overwrites the first recorded error (the source
assigns `r.Error` unguarded), so the last error wins, not the first. -/
theorem deferred_error_overwrite_cex :
    ((NewRequest.WithJsonBody (fun _ : Unit => Except.error "first") ()).WithJsonBody
        (fun _ : Unit => Except.error "second") ()).Error =
      some "failed to marshal json object: second" ∧
    ((NewRequest.WithJsonBody (fun _ : Unit => Except.error "first") ()).WithJsonBody
        (fun _ : Unit => Except.error "second") ()).Error ≠
      some "failed to marshal json object: first" := by
  constructor
  · rfl
  · decide

/-- C3 (amended): a single deferred-error slot is retained and every
configuration call still returns a builder, but the last error wins: a
later failing WithJsonBody overwrites an already-recorded error, while
configuration calls that do not fail leave the recorded error
unchanged. -/
theorem deferred_error_last_wins {α : Type} (r : RequestBuilder)
    (marshal : α → Except String String) (obj : α)
    (method path k v name value : String) (b : Option String) (c : Cookie)
    (ctx : Ctx) :
    (∀ e, marshal obj = Except.error e →
        (r.WithJsonBody marshal obj).Error =
          some ("failed to marshal json object: " ++ e)) ∧
    (∀ bs, marshal obj = Except.ok bs →
        (r.WithJsonBody marshal obj).Error = r.Error) ∧
    (r.WithMethod method path).Error = r.Error ∧
    (r.WithHeader k v).Error = r.Error ∧
    (r.WithBody b).Error = r.Error ∧
    (r.WithCookie c).Error = r.Error ∧
    (r.WithCookieNameValue name value).Error = r.Error ∧
    (r.WithContext ctx).Error = r.Error := by
  refine ⟨?_, ?_, rfl, rfl, rfl, rfl, rfl, rfl⟩
  · intro e herr
    simp [RequestBuilder.WithJsonBody, herr, RequestBuilder.WithJsonContentType,
      RequestBuilder.WithContentType, RequestBuilder.WithHeader]
  · intro bs hok
    simp [RequestBuilder.WithJsonBody, hok, RequestBuilder.WithJsonContentType,
      RequestBuilder.WithContentType, RequestBuilder.WithHeader]

/-- C3 witness: on a builder already carrying an error, a second failing
WithJsonBody installs the new error; a succeeding WithJsonBody and a
plain header write keep the error slot as it was. -/
theorem deferred_error_last_wins_witness :
    (({ Error := some "failed to marshal json object: first" } :
        RequestBuilder).WithJsonBody badMarshal ()).Error =
      some ("failed to marshal json object: " ++ "unsupported type") ∧
    (NewRequest.WithJsonBody okMarshal ()).Error = NewRequest.Error ∧
    (NewRequest.WithHeader "Accept" "text/plain").Error = NewRequest.Error := by
  refine ⟨?_, ?_, ?_⟩
  · exact (deferred_error_last_wins
      { Error := some "failed to marshal json object: first" } badMarshal ()
      "" "" "" "" "" "" none { Name := "", Value := "" } { id := 0 }).1
      "unsupported type" rfl
  · exact (deferred_error_last_wins NewRequest okMarshal ()
      "" "" "" "" "" "" none { Name := "", Value := "" } { id := 0 }).2.1
      "7" rfl
  · exact (deferred_error_last_wins NewRequest okMarshal ()
      "" "" "Accept" "text/plain" "" "" none { Name := "", Value := "" }
      { id := 0 }).2.2.2.1

/-- C4: WithJsonBody sets the body to the serialization of the object and
the Content-Type header to application/json; a serialization failure is
not raised (the call still returns a builder) but is recorded as the
deferred error, which surfaces only at dispatch: dispatch then reports it
and returns no result without invoking the handler. -/
theorem withJsonBody_spec {α : Type} (r : RequestBuilder)
    (marshal : α → Except String String) (obj : α)
    (handler : HttpRequest → RecordedResponse) :
    (∀ bs, marshal obj = Except.ok bs →
        (r.WithJsonBody marshal obj).Body = some bs ∧
        mapLookup (r.WithJsonBody marshal obj).Headers "Content-Type" =
          some "application/json") ∧
    (∀ e, marshal obj = Except.error e →
        (r.WithJsonBody marshal obj).Error =
          some ("failed to marshal json object: " ++ e) ∧
        mapLookup (r.WithJsonBody marshal obj).Headers "Content-Type" =
          some "application/json" ∧
        ((r.WithJsonBody marshal obj).GoWithHTTPHandler handler).reporterCalls =
          ["error constructing request: " ++
            ("failed to marshal json object: " ++ e)] ∧
        ((r.WithJsonBody marshal obj).GoWithHTTPHandler handler).result =
          none ∧
        ((r.WithJsonBody marshal obj).GoWithHTTPHandler handler).handlerCalls =
          []) := by
  constructor
  · intro bs hok
    refine ⟨?_, ?_⟩
    · simp [RequestBuilder.WithJsonBody, hok, RequestBuilder.WithJsonContentType,
        RequestBuilder.WithContentType, RequestBuilder.WithHeader]
    · simp [RequestBuilder.WithJsonBody, hok, RequestBuilder.WithJsonContentType,
        RequestBuilder.WithContentType, RequestBuilder.WithHeader,
        mapLookup_mapSet_self]
  · intro e herr
    have hErr : (r.WithJsonBody marshal obj).Error =
        some ("failed to marshal json object: " ++ e) := by
      simp [RequestBuilder.WithJsonBody, herr, RequestBuilder.WithJsonContentType,
        RequestBuilder.WithContentType, RequestBuilder.WithHeader]
    refine ⟨hErr, ?_, ?_, ?_, ?_⟩
    · simp [RequestBuilder.WithJsonBody, herr, RequestBuilder.WithJsonContentType,
        RequestBuilder.WithContentType, RequestBuilder.WithHeader,
        mapLookup_mapSet_self]
    · simp [RequestBuilder.GoWithHTTPHandler, hErr]
    · simp [RequestBuilder.GoWithHTTPHandler, hErr]
    · simp [RequestBuilder.GoWithHTTPHandler, hErr]

/-- C4 witness: a succeeding and a failing marshal at concrete inputs. -/
theorem withJsonBody_spec_witness :
    ((NewRequest.WithJsonBody okMarshal ()).Body = some "7" ∧
      mapLookup (NewRequest.WithJsonBody okMarshal ()).Headers "Content-Type" =
        some "application/json") ∧
    ((NewRequest.WithJsonBody badMarshal ()).Error =
        some ("failed to marshal json object: " ++ "unsupported type") ∧
      mapLookup (NewRequest.WithJsonBody badMarshal ()).Headers "Content-Type" =
        some "application/json" ∧
      ((NewRequest.WithJsonBody badMarshal ()).GoWithHTTPHandler
          nullHandler).reporterCalls =
        ["error constructing request: " ++
          ("failed to marshal json object: " ++ "unsupported type")] ∧
      ((NewRequest.WithJsonBody badMarshal ()).GoWithHTTPHandler
          nullHandler).result = none ∧
      ((NewRequest.WithJsonBody badMarshal ()).GoWithHTTPHandler
          nullHandler).handlerCalls = []) :=
  ⟨(withJsonBody_spec NewRequest okMarshal () nullHandler).1 "7" rfl,
   (withJsonBody_spec NewRequest badMarshal () nullHandler).2
     "unsupported type" rfl⟩

/-- C6: cookies appended via WithCookie or WithCookieNameValue reach the
synthesized request attached in exactly the append order, duplicates
included; WithCookieNameValue is WithCookie on the implicitly constructed
name/value cookie. -/
theorem cookies_preserve_order (r : RequestBuilder) (cs : List Cookie)
    (handler : HttpRequest → RecordedResponse) :
    (∀ (b : RequestBuilder) (name value : String),
        b.WithCookieNameValue name value =
          b.WithCookie { Name := name, Value := value }) ∧
    (cs.foldl RequestBuilder.WithCookie r).Cookies = r.Cookies ++ cs ∧
    ((cs.foldl RequestBuilder.WithCookie r).Error = none →
      ((cs.foldl RequestBuilder.WithCookie r).GoWithHTTPHandler
          handler).handlerCalls.map HttpRequest.cookies =
        [r.Cookies ++ cs]) := by
  refine ⟨fun b name value => rfl, foldl_withCookie r cs, ?_⟩
  intro hno
  simp [RequestBuilder.GoWithHTTPHandler, hno, RequestBuilder.synthesizeRequest,
    foldl_append_singleton, foldl_withCookie]

/-- C6 witness: three cookies with a duplicate, appended to a fresh
builder, arrive in append order. -/
theorem cookies_preserve_order_witness :
    ((([⟨"a", "1"⟩, ⟨"a", "1"⟩, ⟨"b", "2"⟩] : List Cookie).foldl
        RequestBuilder.WithCookie NewRequest).GoWithHTTPHandler
        nullHandler).handlerCalls.map HttpRequest.cookies =
      [NewRequest.Cookies ++ [⟨"a", "1"⟩, ⟨"a", "1"⟩, ⟨"b", "2"⟩]] :=
  (cookies_preserve_order NewRequest [⟨"a", "1"⟩, ⟨"a", "1"⟩, ⟨"b", "2"⟩]
    nullHandler).2.2 rfl

/-- C7 counterexample: two configured names that differ only in case —
"foo" and "Foo" — collide under header-key canonicalization
(`Header.Add` canonicalizes), so the synthesized request holds two values
under the one canonical key, and the configured name "foo" does not map
to exactly its own single value. -/
theorem header_canonical_collision_cex :
    (headerValues ((NewRequest.WithHeader "foo" "a").WithHeader "Foo"
        "b").synthesizeRequest.header "Foo").length = 2 ∧
    headerValues ((NewRequest.WithHeader "foo" "a").WithHeader "Foo"
        "b").synthesizeRequest.header "foo" ≠ ["a"] := by
  constructor
  · rfl
  · decide

/-- C7 (amended): the builder header map is last-write-wins per exact
name and, provided the configured names canonicalize to pairwise
distinct header keys, the synthesized request carries exactly one value
per configured name — the value stored in the builder map, i.e. the last
one set for that name.  (Configured names that collide after
canonicalization instead accumulate under one canonical key.) -/
theorem header_last_write_wins (r : RequestBuilder) (k v : String)
    (hnd : (r.Headers.map (fun kv => canonicalMIMEHeaderKey kv.1)).Nodup) :
    mapLookup (r.WithHeader k v).Headers k = some v ∧
    (∀ k0 v0, (k0, v0) ∈ r.Headers →
        headerValues r.synthesizeRequest.header k0 = [v0]) := by
  constructor
  · exact mapLookup_mapSet_self r.Headers k v
  · intro k0 v0 hmem
    show valuesAt (r.Headers.foldl addHeadersStep [])
      (canonicalMIMEHeaderKey k0) = [v0]
    rw [valuesAt_foldl_addHeaders]
    have hfilter := filter_eq_singleton_of_nodup_map
      (fun kv : String × String => canonicalMIMEHeaderKey kv.1) r.Headers hnd
      (k0, v0) hmem
    dsimp only at hfilter
    rw [hfilter]
    simp [valuesAt, multiLookup]

/-- C7 witness: two distinct configured headers; the request carries
exactly the one (last-written) value for each. -/
theorem header_last_write_wins_witness :
    mapLookup (((NewRequest.WithContentType "application/json").WithAccept
        "text/plain").WithHeader "Accept" "application/xml").Headers
      "Accept" = some "application/xml" ∧
    headerValues ((NewRequest.WithContentType "application/json").WithAccept
        "text/plain").synthesizeRequest.header "Content-Type" =
      ["application/json"] := by
  have h := header_last_write_wins
    ((NewRequest.WithContentType "application/json").WithAccept "text/plain")
    "Accept" "application/xml" (by decide)
  exact ⟨h.1, h.2 "Content-Type" "application/json" (by decide)⟩

/-- C5: UnmarshalBodyToObject strips the parameter segment after the
first semicolon from the Content-Type header, trims whitespace, and
looks the bare media type up in the decoder registry; an unregistered
type yields the error "unhandled content: " followed by the bare media
type (so the message contains that type), leaving the destination
untouched; a registered type invokes its decoder with the full header
value, the raw body, the destination and the strictness flag. -/
theorem unmarshal_content_type_dispatch (c : CompletedRequest)
    (obj : KnownObj) :
    (getHandler (bareContentType
          (headerGet c.Recorder.headers "Content-Type")) = none →
        c.UnmarshalBodyToObject obj =
          (some ("unhandled content: " ++ bareContentType
            (headerGet c.Recorder.headers "Content-Type")), obj) ∧
        ∃ pre post,
          "unhandled content: " ++ bareContentType
              (headerGet c.Recorder.headers "Content-Type") =
            pre ++ (bareContentType
              (headerGet c.Recorder.headers "Content-Type") ++ post)) ∧
    (∀ d, getHandler (bareContentType
          (headerGet c.Recorder.headers "Content-Type")) = some d →
        c.UnmarshalBodyToObject obj =
          d (headerGet c.Recorder.headers "Content-Type") c.Recorder.body obj
            c.Strict) := by
  constructor
  · intro h
    constructor
    · simp [CompletedRequest.UnmarshalBodyToObject, h]
    · exact ⟨"unhandled content: ", "", by simp⟩
  · intro d h
    simp [CompletedRequest.UnmarshalBodyToObject, h]

/-- C5 witness: an unregistered text/xml response yields the unhandled
content error containing "text/xml" and leaves the destination alone; a
response typed "application/json; charset=utf-8" dispatches to the JSON
decoder with the full header value, the body, the destination and the
strictness flag. -/
theorem unmarshal_content_type_dispatch_witness :
    (xmlReq.UnmarshalBodyToObject {} =
        (some ("unhandled content: " ++ "text/xml"), ({} : KnownObj)) ∧
      ∃ pre post,
        "unhandled content: " ++ "text/xml" = pre ++ ("text/xml" ++ post)) ∧
    utf8JsonReq.UnmarshalBodyToObject {} =
      jsonHandler "application/json; charset=utf-8" utf8JsonReq.Recorder.body
        {} false := by
  constructor
  · exact (unmarshal_content_type_dispatch xmlReq {}).1 rfl
  · exact (unmarshal_content_type_dispatch utf8JsonReq {}).2 jsonHandler rfl

/-- C8: DisallowUnknownFields turns the strictness flag on; decoding a
JSON body carrying an object field absent from the target shape fails
when strict is true and succeeds — ignoring the unknown field — when
strict is false. -/
theorem strict_mode_decode (c : CompletedRequest) (obj : KnownObj)
    (hct : headerGet c.Recorder.headers "Content-Type" = "application/json")
    (hbody : c.Recorder.body = "\x7b\"known\":1,\"unknown\":2\x7d") :
    c.DisallowUnknownFields.Strict = true ∧
    (c.Strict = true → (c.UnmarshalBodyToObject obj).1.isSome = true) ∧
    (c.Strict = false →
        c.UnmarshalBodyToObject obj = (none, { known := 1 })) := by
  have hb : bareContentType "application/json" = "application/json" := rfl
  have hg : getHandler "application/json" = some jsonHandler := rfl
  have hmain : c.UnmarshalBodyToObject obj =
      jsonHandler "application/json" c.Recorder.body obj c.Strict := by
    simp only [CompletedRequest.UnmarshalBodyToObject]
    rw [hct, hb, hg]
  refine ⟨rfl, ?_, ?_⟩
  · intro hs
    rw [hmain, hbody, hs]
    rfl
  · intro hs
    rw [hmain, hbody, hs]
    rfl

/-- C8 witness: the same unknown-field body decodes leniently and is
rejected strictly; DisallowUnknownFields yields a strict result. -/
theorem strict_mode_decode_witness :
    (strictJsonReq.UnmarshalBodyToObject {}).1.isSome = true ∧
    lenientJsonReq.UnmarshalBodyToObject {} = (none, { known := 1 }) ∧
    lenientJsonReq.DisallowUnknownFields.Strict = true := by
  refine ⟨?_, ?_, ?_⟩
  · exact (strict_mode_decode strictJsonReq {} rfl rfl).2.1 rfl
  · exact (strict_mode_decode lenientJsonReq {} rfl rfl).2.2 rfl
  · exact (strict_mode_decode lenientJsonReq {} rfl rfl).1

/-- C10: a recorded response whose Content-Type header value is the
empty string does not fall back to JSON decoding: the registry lookup of
the empty media type fails, the unhandled-content error for the empty
type is returned, and the destination object is untouched. -/
theorem unmarshal_empty_content_type (c : CompletedRequest) (obj : KnownObj)
    (h : headerGet c.Recorder.headers "Content-Type" = "") :
    c.UnmarshalBodyToObject obj = (some "unhandled content: ", obj) := by
  have hb : bareContentType "" = "" := rfl
  have hg : getHandler "" = none := rfl
  simp only [CompletedRequest.UnmarshalBodyToObject]
  rw [h, hb, hg]
  rfl

/-- C10 witness: a response with an explicitly empty Content-Type. -/
theorem unmarshal_empty_content_type_witness :
    emptyCtReq.UnmarshalBodyToObject {} =
      (some "unhandled content: ", ({} : KnownObj)) :=
  unmarshal_empty_content_type emptyCtReq {} rfl
